import Mathlib

/-!
Shallow embedding of the connection-pool core of libavformat/dashenc_http.c:
the slot table (thr_data), the claim/release engine (claim_connection,
force_release_connection), the request dispatcher (open_request, pool_io_open),
the asynchronous close job body (thr_io_close), and the public slot-indexed
operations (pool_io_close, pool_free, pool_write_flush, pool_avio_write,
pool_get_context).

Modelling conventions:
- The fixed C array thr_data[nr_of_threads] is modelled as a list of
  ThreadData records; an access at an index outside the list is the C
  out-of-bounds access and yields the distinguished IOOut.oob outcome.
- The AVIOContext pointer data->out is modelled as Option Nat (a handle id,
  none = NULL).
- External collaborators (s->io_open, ff_http_do_new_request, ffurl_shutdown,
  avio_write/avio_flush, ff_format_io_close, pool_enqueue, av_gettime) are
  oracles in Env; the calls a run performs are recorded as an ExtCall trace.
- abort() (reached via abort_if_needed or av_assert0) is the IOOut.aborted
  outcome.
-/

namespace DashencHttp

/-- nr_of_threads, the fixed pool capacity (dashenc_http.c line 15). -/
def nrOfThreads : Nat := 20

/-- One slot of the pool: struct _thread_data_t (lines 17-27). -/
structure ThreadData where
  tid : Nat
  out : Option Nat
  claimed : Bool
  opened : Bool
  releaseTime : Int
  mustSucceed : Bool
deriving Repr, DecidableEq

/-- A zero-initialized slot, as in the static array thr_data. -/
def freshSlot : ThreadData :=
  { tid := 0, out := none, claimed := false, opened := false
  , releaseTime := 0, mustSucceed := false }

/-- The slot table; intended states have length nrOfThreads. -/
abbrev Pool := List ThreadData

/-- Array read thr_data[i]; none models an out-of-bounds access. -/
def slotAt : Pool → Nat → Option ThreadData
  | [], _ => none
  | d :: _, 0 => some d
  | _ :: rest, n+1 => slotAt rest n

/-- In-place update of slot i of the table. -/
def modifySlot : Pool → Nat → (ThreadData → ThreadData) → Pool
  | [], _, _ => []
  | d :: rest, 0, f => f d :: rest
  | d :: rest, n+1, f => d :: modifySlot rest n f

/-- Results of the external collaborators for one run, plus the clock. -/
structure Env where
  now : Int
  ioOpenResult : Int
  newHandle : Nat
  newRequestResult : Int
  shutdownResult : Int
deriving Repr, DecidableEq

/-- External calls a run can perform, recorded in order. -/
inductive ExtCall where
  | ioOpen : ExtCall
  | newRequest : Nat → ExtCall
  | ioClose : Nat → ExtCall
  | flush : Nat → ExtCall
  | shutdown : Nat → ExtCall
  | write : Nat → ExtCall
  | enqueue : Nat → ExtCall
deriving Repr, DecidableEq

/-- Outcome of an operation: normal return with the table it leaves behind,
process abort, or out-of-bounds access (undefined behaviour in the C). -/
inductive IOOut where
  | ret : Int → Pool → List ExtCall → IOOut
  | aborted : List ExtCall → IOOut
  | oob : List ExtCall → IOOut
deriving Repr, DecidableEq

/-- Outcome of pool_get_context: the out parameter is left unset, set to the
slot's handle, or the access was out of bounds. -/
inductive CtxOut where
  | unset : CtxOut
  | got : Option Nat → CtxOut
  | oob : CtxOut
deriving Repr, DecidableEq

/-- The scan loop of claim_connection (lines 43-51): state is the pair
(data_nr, lowest_release_time); i is the index of the head of the remaining
list. Returns the final (data_nr, lowest_release_time). -/
def claimLoop : Pool → Nat → Int → Int → Int × Int
  | [], _, dataNr, lowest => (dataNr, lowest)
  | d :: rest, i, dataNr, lowest =>
    if d.claimed = false ∧ (dataNr = -1 ∨ (d.releaseTime ≠ 0 ∧ d.releaseTime < lowest)) then
      claimLoop rest (i+1) (i : Int) d.releaseTime
    else
      claimLoop rest (i+1) dataNr lowest

/-- claim_connection (lines 38-64): scan under the lock; on success mark the
winner claimed and record its tid; on exhaustion return -1 with the table
unchanged. lowest_release_time starts at the current time (line 39). -/
def claim_connection (now : Int) (pool : Pool) : Int × Pool :=
  let r := claimLoop pool 0 (-1) now
  if r.1 = -1 then (-1, pool)
  else (r.1, modifySlot pool r.1.toNat
    (fun d => { d with claimed := true, tid := r.1.toNat }))

/-- force_release_connection (lines 86-91): clears opened and claimed under
the lock; release_time is not touched. -/
def force_release_connection (pool : Pool) (i : Nat) : Pool :=
  modifySlot pool i (fun d => { d with opened := false, claimed := false })

/-- open_request (lines 69-84), the non-persistent dispatcher path: claims a
connection (a -1 claim result leads to the thr_data[-1] access, hence oob),
then calls s->io_open; on success marks the slot opened and returns the slot
index, on failure returns the error with the slot still claimed. -/
def open_request (env : Env) (pool : Pool) : IOOut :=
  let r := claim_connection env.now pool
  let connNr := r.1
  let pool1 := r.2
  if connNr < 0 then IOOut.oob []
  else
    match slotAt pool1 connNr.toNat with
    | none => IOOut.oob []
    | some _ =>
      if env.ioOpenResult < 0 then
        IOOut.ret env.ioOpenResult
          (modifySlot pool1 connNr.toNat (fun x => { x with out := none }))
          [ExtCall.ioOpen]
      else
        IOOut.ret connNr
          (modifySlot pool1 connNr.toNat
            (fun x => { x with out := some env.newHandle, opened := true }))
          [ExtCall.ioOpen]

/-- pool_io_open (lines 104-158). isHttp models ff_is_http_proto(filename)
(false also covers filename == NULL); the persistent branch models lines
115-154: av_assert0(conn_nr >= 0) aborts on exhaustion, must_succeed is stored
on the slot, an unopened slot is opened via s->io_open, an opened slot is
reused via ff_http_do_new_request on its existing handle; on failure the slot
is force-released (closing the handle in the reuse case) and abort_if_needed
runs. -/
def pool_io_open (env : Env) (isHttp httpPersistent mustSucceed : Bool)
    (pool : Pool) : IOOut :=
  if isHttp && httpPersistent then
    let r := claim_connection env.now pool
    let connNr := r.1
    let pool1 := r.2
    if connNr < 0 then IOOut.aborted []
    else
      match slotAt pool1 connNr.toNat with
      | none => IOOut.oob []
      | some d =>
        let pool2 := modifySlot pool1 connNr.toNat
          (fun x => { x with mustSucceed := mustSucceed })
        if d.opened = false then
          if env.ioOpenResult < 0 then
            let pool4 := force_release_connection
              (modifySlot pool2 connNr.toNat (fun x => { x with out := none }))
              connNr.toNat
            if mustSucceed then IOOut.aborted [ExtCall.ioOpen]
            else IOOut.ret env.ioOpenResult pool4 [ExtCall.ioOpen]
          else
            IOOut.ret connNr
              (modifySlot pool2 connNr.toNat
                (fun x => { x with out := some env.newHandle, opened := true }))
              [ExtCall.ioOpen]
        else
          match d.out with
          | none => IOOut.oob []
          | some h =>
            if env.newRequestResult < 0 then
              let pool4 := force_release_connection
                (modifySlot pool2 connNr.toNat (fun x => { x with out := none }))
                connNr.toNat
              if mustSucceed then
                IOOut.aborted [ExtCall.newRequest h, ExtCall.ioClose h]
              else
                IOOut.ret env.newRequestResult pool4
                  [ExtCall.newRequest h, ExtCall.ioClose h]
            else
              IOOut.ret connNr pool2 [ExtCall.newRequest h]
  else
    open_request env pool

/-- thr_io_close (lines 164-189), the async close job body for slot i:
release_time is sampled at entry; flush, then ffurl_shutdown; a shutdown
failure runs abort_if_needed on the slot's must_succeed and clears opened;
finally claimed is cleared and release_time recorded. A NULL out fails
av_assert0 via ffio_geturlcontext. -/
def thr_io_close (env : Env) (pool : Pool) (i : Nat) : IOOut :=
  match slotAt pool i with
  | none => IOOut.oob []
  | some d =>
    match d.out with
    | none => IOOut.aborted []
    | some h =>
      if env.shutdownResult < 0 then
        if d.mustSucceed then IOOut.aborted [ExtCall.flush h, ExtCall.shutdown h]
        else
          IOOut.ret 0
            (modifySlot pool i (fun x =>
              { x with opened := false, claimed := false, releaseTime := env.now }))
            [ExtCall.flush h, ExtCall.shutdown h]
      else
        IOOut.ret 0
          (modifySlot pool i (fun x =>
            { x with claimed := false, releaseTime := env.now }))
          [ExtCall.flush h, ExtCall.shutdown h]

/-- pool_io_close (lines 194-212): a negative conn_nr only logs; an unopened
slot logs, runs abort_if_needed on the slot's must_succeed and returns;
otherwise the slot is enqueued on the close worker pool. -/
def pool_io_close (pool : Pool) (connNr : Int) : IOOut :=
  if connNr < 0 then IOOut.ret 0 pool []
  else
    match slotAt pool connNr.toNat with
    | none => IOOut.oob []
    | some d =>
      if d.opened = false then
        if d.mustSucceed then IOOut.aborted []
        else IOOut.ret 0 pool []
      else IOOut.ret 0 pool [ExtCall.enqueue connNr.toNat]

/-- pool_free (lines 214-227): a negative conn_nr only logs; otherwise
ff_format_io_close closes the handle (if any) and clears out, then
force_release_connection clears opened and claimed. -/
def pool_free (pool : Pool) (connNr : Int) : IOOut :=
  if connNr < 0 then IOOut.ret 0 pool []
  else
    match slotAt pool connNr.toNat with
    | none => IOOut.oob []
    | some d =>
      IOOut.ret 0
        (force_release_connection
          (modifySlot pool connNr.toNat (fun x => { x with out := none }))
          connNr.toNat)
        (match d.out with
         | some h => [ExtCall.ioClose h]
         | none => [])

/-- pool_write_flush (lines 240-252): a negative conn_nr only logs; otherwise
avio_write then avio_flush on data->out; a NULL out is dereferenced (oob). -/
def pool_write_flush (pool : Pool) (connNr : Int) : IOOut :=
  if connNr < 0 then IOOut.ret 0 pool []
  else
    match slotAt pool connNr.toNat with
    | none => IOOut.oob []
    | some d =>
      match d.out with
      | none => IOOut.oob []
      | some h => IOOut.ret 0 pool [ExtCall.write h, ExtCall.flush h]

/-- pool_avio_write (lines 254-267): a negative conn_nr logs and returns -1;
otherwise the bytes are written only when data->out is non-NULL, and 0 is
returned. -/
def pool_avio_write (pool : Pool) (connNr : Int) : IOOut :=
  if connNr < 0 then IOOut.ret (-1) pool []
  else
    match slotAt pool connNr.toNat with
    | none => IOOut.oob []
    | some d =>
      match d.out with
      | none => IOOut.ret 0 pool []
      | some h => IOOut.ret 0 pool [ExtCall.write h]

/-- pool_get_context (lines 272-282): a negative conn_nr logs and leaves the
out parameter unset; otherwise the slot's handle is returned. -/
def pool_get_context (pool : Pool) (connNr : Int) : CtxOut :=
  if connNr < 0 then CtxOut.unset
  else
    match slotAt pool connNr.toNat with
    | none => CtxOut.oob
    | some d => CtxOut.got d.out

/-- A released slot: unclaimed and opened with release time t and handle h. -/
def releasedSlot (t : Int) (h : Nat) : ThreadData :=
  { tid := 0, out := some h, claimed := false, opened := true
  , releaseTime := t, mustSucceed := false }

/-- A pool of 20 zero-initialized slots, the state right after program start. -/
def freshPool20 : Pool := List.replicate nrOfThreads freshSlot

/-- A claimed, unopened slot as produced by a first claim on a fresh pool. -/
def claimedFresh (i : Nat) : ThreadData :=
  { freshSlot with claimed := true, tid := i }

/-- A pool of 20 slots that are all claimed (pool exhaustion state). -/
def fullPool20 : Pool := List.replicate nrOfThreads (claimedFresh 0)

/-- The table after the first claim on a fresh pool. -/
def poolAfterFirstClaim : Pool := claimedFresh 0 :: List.replicate 19 freshSlot

/-- The table after two claims on a fresh pool. -/
def poolAfterSecondClaim : Pool :=
  claimedFresh 0 :: claimedFresh 1 :: List.replicate 18 freshSlot

/-- The table claim_connection produces when it claims the released slot 0 of
a pool whose other 19 slots are fresh. -/
def reusePool : Pool := releasedSlot 5 7 :: List.replicate 19 freshSlot

/-- reusePool after its slot 0 has been claimed. -/
def reusePoolClaimed : Pool :=
  { releasedSlot 5 7 with claimed := true, tid := 0 } :: List.replicate 19 freshSlot

/-- A table whose first unclaimed slot (index 0) was never released
(release time 0) while a later unclaimed slot (index 1) holds a released
persistent connection with release time 5. -/
def stalePool : Pool :=
  freshSlot :: releasedSlot 5 7 :: List.replicate 18 (claimedFresh 0)

/-- A claimed, opened slot with release time t (a request in flight). -/
def busySlot (t : Int) : ThreadData :=
  { tid := 0, out := some 3, claimed := true, opened := true
  , releaseTime := t, mustSucceed := false }

/-- A claimed but unopened slot whose request was marked must-succeed. -/
def mustSlot : ThreadData :=
  { tid := 0, out := none, claimed := true, opened := false
  , releaseTime := 0, mustSucceed := true }

/-- An environment in which every external operation succeeds. -/
def okEnv : Env :=
  { now := 1000, ioOpenResult := 0, newHandle := 11
  , newRequestResult := 0, shutdownResult := 0 }

/-- An environment in which every external operation fails. -/
def failEnv : Env :=
  { now := 1000, ioOpenResult := -5, newHandle := 11
  , newRequestResult := -7, shutdownResult := -3 }

/-! ### Basic lemmas about the slot table -/

theorem slotAt_mem {l : Pool} {n : Nat} {d : ThreadData} (h : slotAt l n = some d) :
    d ∈ l := by
  induction l generalizing n with
  | nil => simp [slotAt] at h
  | cons e rest ih =>
    cases n with
    | zero =>
      simp only [slotAt, Option.some.injEq] at h
      exact h ▸ List.mem_cons_self e rest
    | succ n => exact List.mem_cons_of_mem _ (ih h)

theorem slotAt_append (P l : Pool) (n : Nat) :
    slotAt (P ++ l) (P.length + n) = slotAt l n := by
  induction P with
  | nil => simp [slotAt]
  | cons d P ih =>
    have hidx : P.length + 1 + n = (P.length + n) + 1 := by omega
    simp only [List.cons_append, List.length_cons, hidx, slotAt]
    exact ih

theorem length_modifySlot (l : Pool) (n : Nat) (f : ThreadData → ThreadData) :
    (modifySlot l n f).length = l.length := by
  induction l generalizing n with
  | nil => rfl
  | cons d rest ih =>
    cases n with
    | zero => rfl
    | succ n => simp [modifySlot, ih]

theorem slotAt_modifySlot_self (l : Pool) (n : Nat) (f : ThreadData → ThreadData) :
    slotAt (modifySlot l n f) n = (slotAt l n).map f := by
  induction l generalizing n with
  | nil => rfl
  | cons d rest ih =>
    cases n with
    | zero => rfl
    | succ n => simpa [modifySlot, slotAt] using ih n

theorem slotAt_modifySlot_other (l : Pool) (n k : Nat) (f : ThreadData → ThreadData)
    (h : k ≠ n) : slotAt (modifySlot l n f) k = slotAt l k := by
  induction l generalizing n k with
  | nil => rfl
  | cons d rest ih =>
    cases n with
    | zero =>
      cases k with
      | zero => exact absurd rfl h
      | succ k => rfl
    | succ n =>
      cases k with
      | zero => rfl
      | succ k =>
        simpa [modifySlot, slotAt] using ih n k (fun hh => h (by rw [hh]))

/-! ### Lemmas about the claim_connection scan loop -/

theorem claimLoop_cons_pos {d : ThreadData} {a w : Int} (rest : Pool) (i : Nat)
    (hc : d.claimed = false ∧ (a = -1 ∨ (d.releaseTime ≠ 0 ∧ d.releaseTime < w))) :
    claimLoop (d :: rest) i a w = claimLoop rest (i+1) (i : Int) d.releaseTime := by
  simp only [claimLoop, if_pos hc]

theorem claimLoop_cons_neg {d : ThreadData} {a w : Int} (rest : Pool) (i : Nat)
    (hc : ¬(d.claimed = false ∧ (a = -1 ∨ (d.releaseTime ≠ 0 ∧ d.releaseTime < w)))) :
    claimLoop (d :: rest) i a w = claimLoop rest (i+1) a w := by
  simp only [claimLoop, if_neg hc]

theorem claimLoop_fst_nonneg (l : Pool) : ∀ (i : Nat) (a w : Int), 0 ≤ a →
    0 ≤ (claimLoop l i a w).1 := by
  induction l with
  | nil => intro i a w ha; simpa [claimLoop] using ha
  | cons d rest ih =>
    intro i a w ha
    by_cases hc : d.claimed = false ∧ (a = -1 ∨ (d.releaseTime ≠ 0 ∧ d.releaseTime < w))
    · rw [claimLoop_cons_pos rest i hc]
      exact ih _ _ _ (Int.natCast_nonneg i)
    · rw [claimLoop_cons_neg rest i hc]
      exact ih _ _ _ ha

/-- The scan loop either leaves the accumulator pair unchanged or settles on an
unclaimed slot of the remaining list, whose release time becomes the running
lowest_release_time. -/
theorem claimLoop_cases (l : Pool) : ∀ (i : Nat) (a w : Int),
    claimLoop l i a w = (a, w) ∨
    ∃ (pos : Nat) (e : ThreadData), slotAt l pos = some e ∧ e.claimed = false ∧
      (claimLoop l i a w).1 = ((i + pos : Nat) : Int) ∧
      (claimLoop l i a w).2 = e.releaseTime := by
  induction l with
  | nil => intro i a w; left; rfl
  | cons d rest ih =>
    intro i a w
    by_cases hc : d.claimed = false ∧ (a = -1 ∨ (d.releaseTime ≠ 0 ∧ d.releaseTime < w))
    · rw [claimLoop_cons_pos rest i hc]
      rcases ih (i+1) (i : Int) d.releaseTime with h1 | ⟨pos, e, he, hcl, h2, h3⟩
      · right
        refine ⟨0, d, rfl, hc.1, ?_, ?_⟩
        · rw [h1]; simp
        · rw [h1]
      · right
        refine ⟨pos+1, e, he, hcl, ?_, h3⟩
        rw [h2]
        congr 1
        omega
    · rw [claimLoop_cons_neg rest i hc]
      rcases ih (i+1) a w with h1 | ⟨pos, e, he, hcl, h2, h3⟩
      · left; exact h1
      · right
        refine ⟨pos+1, e, he, hcl, ?_, h3⟩
        rw [h2]
        congr 1
        omega

/-- Once a slot with a non-zero release time is the running selection, the
final lowest_release_time is non-zero, no larger than the running one, and a
lower bound on the release time of every unclaimed slot of the remaining list
that has a non-zero release time. -/
theorem claimLoop_min (l : Pool) : ∀ (i : Nat) (a w : Int), 0 ≤ a → w ≠ 0 →
    (claimLoop l i a w).2 ≠ 0 ∧ (claimLoop l i a w).2 ≤ w ∧
    ∀ d ∈ l, d.claimed = false → d.releaseTime ≠ 0 →
      (claimLoop l i a w).2 ≤ d.releaseTime := by
  induction l with
  | nil =>
    intro i a w _ hw
    refine ⟨hw, le_refl w, ?_⟩
    intro d hd
    simp at hd
  | cons d rest ih =>
    intro i a w ha hw
    by_cases hc : d.claimed = false ∧ (a = -1 ∨ (d.releaseTime ≠ 0 ∧ d.releaseTime < w))
    · have hne : a ≠ -1 := by omega
      have hrt : d.releaseTime ≠ 0 ∧ d.releaseTime < w := by
        rcases hc.2 with h | h
        · exact absurd h hne
        · exact h
      rw [claimLoop_cons_pos rest i hc]
      obtain ⟨h1, h2, h3⟩ := ih (i+1) (i : Int) d.releaseTime (Int.natCast_nonneg i) hrt.1
      refine ⟨h1, le_trans h2 (le_of_lt hrt.2), ?_⟩
      intro e he hecl hert
      rcases List.mem_cons.mp he with rfl | hmem
      · exact h2
      · exact h3 e hmem hecl hert
    · rw [claimLoop_cons_neg rest i hc]
      obtain ⟨h1, h2, h3⟩ := ih (i+1) a w ha hw
      refine ⟨h1, h2, ?_⟩
      intro e he hecl hert
      rcases List.mem_cons.mp he with rfl | hmem
      · have hnl : ¬ (e.releaseTime < w) := fun hlt => hc ⟨hecl, Or.inr ⟨hert, hlt⟩⟩
        exact le_trans h2 (not_lt.mp hnl)
      · exact h3 e hmem hecl hert

/-- A prefix of slots that are all claimed is skipped by the scan loop without
changing the accumulator. -/
theorem claimLoop_skip_claimed (P : Pool) : ∀ (l : Pool) (i : Nat) (w : Int),
    (∀ d ∈ P, d.claimed = true) →
    claimLoop (P ++ l) i (-1) w = claimLoop l (i + P.length) (-1) w := by
  induction P with
  | nil => intro l i w _; simp
  | cons d P ih =>
    intro l i w hP
    have hd : d.claimed = true := hP d (List.mem_cons_self d P)
    have hc : ¬(d.claimed = false ∧
        ((-1 : Int) = -1 ∨ (d.releaseTime ≠ 0 ∧ d.releaseTime < w))) := by
      simp [hd]
    rw [List.cons_append, claimLoop_cons_neg _ i hc,
      ih l (i+1) w (fun e he => hP e (List.mem_cons_of_mem d he))]
    rw [List.length_cons, show i + 1 + P.length = i + (P.length + 1) from by omega]

/-- If claim_connection returns a non-negative index, that slot was unclaimed
in the scanned table and the returned table marks exactly it claimed. -/
theorem claim_connection_spec {now : Int} {pool : Pool} {j : Int} {p' : Pool}
    (h : claim_connection now pool = (j, p')) (hj : 0 ≤ j) :
    ∃ d, slotAt pool j.toNat = some d ∧ d.claimed = false ∧
      p' = modifySlot pool j.toNat
        (fun x => { x with claimed := true, tid := j.toNat }) := by
  simp only [claim_connection] at h
  rcases claimLoop_cases pool 0 (-1) now with h1 | ⟨pos, e, he, hcl, h2, h3⟩
  · rw [h1] at h
    simp only [if_pos rfl, Prod.mk.injEq] at h
    obtain ⟨hj1, -⟩ := h
    omega
  · have hne : (claimLoop pool 0 (-1) now).1 ≠ -1 := by
      rw [h2]; omega
    rw [if_neg hne] at h
    obtain ⟨hj', hp'⟩ := Prod.mk.injEq .. |>.mp h
    have hpos : j.toNat = pos := by omega
    have htn : (claimLoop pool 0 (-1) now).1.toNat = pos := by
      rw [h2]; omega
    rw [htn] at hp'
    refine ⟨e, ?_, hcl, ?_⟩
    · rw [hpos]; exact he
    · rw [← hp', hpos]

/-- When the scan result is non-negative, claim_connection returns it. -/
theorem claim_connection_fst (now : Int) (pool : Pool)
    (h : (claimLoop pool 0 (-1) now).1 ≠ -1) :
    (claim_connection now pool).1 = (claimLoop pool 0 (-1) now).1 := by
  simp only [claim_connection, if_neg h]

/-! ### The claims -/

/-- C2: if claim_connection returns an index j at least 0, then slot j was
unclaimed in the scanned table and is marked claimed in the returned table
(scan and marking form one atomic step of the model, as the code does both
under one mutex); consequently a second claim performed on the resulting
table, with no release in between, never returns the same index. -/
theorem claim_connection_no_double_claim (now now2 : Int) (pool p1 p2 : Pool)
    (j j2 : Int)
    (h1 : claim_connection now pool = (j, p1)) (hj : 0 ≤ j)
    (h2 : claim_connection now2 p1 = (j2, p2)) (hj2 : 0 ≤ j2) :
    (∃ d, slotAt pool j.toNat = some d ∧ d.claimed = false) ∧
    (∃ d', slotAt p1 j.toNat = some d' ∧ d'.claimed = true) ∧
    j2 ≠ j := by
  obtain ⟨d, hd, hdc, hp1⟩ := claim_connection_spec h1 hj
  have hpost : slotAt p1 j.toNat =
      some { d with claimed := true, tid := j.toNat } := by
    rw [hp1, slotAt_modifySlot_self, hd]; rfl
  refine ⟨⟨d, hd, hdc⟩, ⟨_, hpost, rfl⟩, ?_⟩
  obtain ⟨e, he, hec, -⟩ := claim_connection_spec h2 hj2
  intro hEq
  rw [hEq, hpost] at he
  have hee : e = { d with claimed := true, tid := j.toNat } :=
    (Option.some.inj he).symm
  rw [hee] at hec
  simp at hec

/-- C2 witness: on a fresh pool the first claim returns slot 0 and marks it
claimed; the second claim, with slot 0 still outstanding, returns slot 1. -/
theorem claim_connection_no_double_claim_witness :
    (∃ d, slotAt freshPool20 (0 : Int).toNat = some d ∧ d.claimed = false) ∧
    (∃ d', slotAt poolAfterFirstClaim (0 : Int).toNat = some d' ∧
      d'.claimed = true) ∧
    (1 : Int) ≠ 0 :=
  claim_connection_no_double_claim 100 100 freshPool20 poolAfterFirstClaim
    poolAfterSecondClaim 0 1 (by decide) (by decide) (by decide) (by decide)

/-- C1 counterexample: in stalePool, slot 1 is unclaimed with the (unique)
non-zero release time 5, yet claim_connection returns slot 0, whose release
time is 0 — because the first-scanned unclaimed slot sets
lowest_release_time to 0 and no later slot can beat it. -/
theorem claim_connection_oldest_first_counterexample :
    (claim_connection 1000 stalePool).1 = 0 ∧
    slotAt stalePool 0 = some freshSlot ∧
    freshSlot.claimed = false ∧
    freshSlot.releaseTime = 0 ∧
    slotAt stalePool 1 = some (releasedSlot 5 7) ∧
    (releasedSlot 5 7).claimed = false ∧
    (releasedSlot 5 7).releaseTime = 5 := by
  decide

/-- C1 (amended): when the first-scanned unclaimed slot itself has a non-zero
last release time, claim_connection returns an unclaimed slot with non-zero
release time that is minimal among all unclaimed slots with non-zero release
times; when the first-scanned unclaimed slot has release time 0, that slot is
returned regardless of the other slots (see the counterexample). -/
theorem claim_connection_oldest_first (now : Int) (P rest : Pool)
    (d0 : ThreadData)
    (hP : ∀ d ∈ P, d.claimed = true)
    (h0 : d0.claimed = false) (hrt : d0.releaseTime ≠ 0) :
    ∃ (j : Nat) (dj : ThreadData),
      (claim_connection now (P ++ d0 :: rest)).1 = (j : Int) ∧
      slotAt (P ++ d0 :: rest) j = some dj ∧
      dj.claimed = false ∧ dj.releaseTime ≠ 0 ∧
      ∀ d ∈ P ++ d0 :: rest, d.claimed = false → d.releaseTime ≠ 0 →
        dj.releaseTime ≤ d.releaseTime := by
  have hskip := claimLoop_skip_claimed P (d0 :: rest) 0 now hP
  rw [Nat.zero_add] at hskip
  have hstep : claimLoop (d0 :: rest) P.length (-1) now
      = claimLoop rest (P.length + 1) (P.length : Int) d0.releaseTime :=
    claimLoop_cons_pos rest P.length ⟨h0, Or.inl rfl⟩
  have hfull : claimLoop (P ++ d0 :: rest) 0 (-1) now
      = claimLoop rest (P.length + 1) (P.length : Int) d0.releaseTime :=
    hskip.trans hstep
  obtain ⟨hm1, hm2, hm3⟩ := claimLoop_min rest (P.length + 1) (P.length : Int)
    d0.releaseTime (Int.natCast_nonneg _) hrt
  rcases claimLoop_cases rest (P.length + 1) (P.length : Int) d0.releaseTime with
    hstay | ⟨pos, e, he, hcl, h2, h3⟩
  · -- the scan keeps the first unclaimed slot d0
    refine ⟨P.length, d0, ?_, ?_, h0, hrt, ?_⟩
    · rw [claim_connection_fst now _ (by rw [hfull, hstay]; omega), hfull, hstay]
    · simpa using slotAt_append P (d0 :: rest) 0
    · intro d hd hdc hdrt
      rcases List.mem_append.mp hd with hdP | hdR
      · exact absurd hdc (by simp [hP d hdP])
      · rcases List.mem_cons.mp hdR with rfl | hmem
        · exact le_refl _
        · have := hm3 d hmem hdc hdrt
          rw [hstay] at this
          exact this
  · -- the scan moved on to a strictly older released slot e of rest
    refine ⟨P.length + 1 + pos, e, ?_, ?_, hcl, ?_, ?_⟩
    · rw [claim_connection_fst now _ (by rw [hfull]; omega), hfull, h2]
    · have hidx : P.length + 1 + pos = P.length + (1 + pos) := by omega
      rw [hidx, slotAt_append P (d0 :: rest) (1 + pos),
        show 1 + pos = pos + 1 from by omega]
      exact he
    · rw [← h3]; exact hm1
    · intro d hd hdc hdrt
      rcases List.mem_append.mp hd with hdP | hdR
      · exact absurd hdc (by simp [hP d hdP])
      · rcases List.mem_cons.mp hdR with rfl | hmem
        · rw [← h3]; exact hm2
        · rw [← h3]; exact hm3 d hmem hdc hdrt

/-- C1 witness: with slot 0 claimed and slot 1 the first unclaimed slot,
released at time 5, the claim picks an unclaimed slot with the minimal
non-zero release time. -/
theorem claim_connection_oldest_first_witness :
    ∃ (j : Nat) (dj : ThreadData),
      (claim_connection 1000
        ([claimedFresh 0] ++ releasedSlot 5 7 :: List.replicate 18 freshSlot)).1
        = (j : Int) ∧
      slotAt ([claimedFresh 0] ++ releasedSlot 5 7 :: List.replicate 18 freshSlot)
        j = some dj ∧
      dj.claimed = false ∧ dj.releaseTime ≠ 0 ∧
      ∀ d ∈ [claimedFresh 0] ++ releasedSlot 5 7 :: List.replicate 18 freshSlot,
        d.claimed = false → d.releaseTime ≠ 0 →
        dj.releaseTime ≤ d.releaseTime :=
  claim_connection_oldest_first 1000 [claimedFresh 0]
    (List.replicate 18 freshSlot) (releasedSlot 5 7)
    (by decide) (by decide) (by decide)

/-- C4: on an exhausted pool (all 20 slots claimed) the persistent path
aborts through av_assert0, but the non-persistent path passes the -1 claim
result straight to the thr_data[-1] access: an out-of-bounds access, not an
abort, whatever must_succeed is. -/
theorem pool_exhaustion_behavior :
    pool_io_open okEnv true true true fullPool20 = IOOut.aborted [] ∧
    pool_io_open okEnv true true false fullPool20 = IOOut.aborted [] ∧
    pool_io_open okEnv false false true fullPool20 = IOOut.oob [] ∧
    pool_io_open okEnv false false false fullPool20 = IOOut.oob [] ∧
    pool_io_open okEnv true false true fullPool20 = IOOut.oob [] := by
  decide

/-- C6: when the persistent path claims a slot that is already opened, it
calls ff_http_do_new_request on the slot's existing handle, performs no
io_open, and on success returns that slot's index; only the slot's
must_succeed field changes. -/
theorem pool_io_open_reuses_persistent (env : Env) (pool p1 : Pool) (j : Int)
    (d : ThreadData) (h : Nat) (ms : Bool)
    (hclaim : claim_connection env.now pool = (j, p1)) (hj : 0 ≤ j)
    (hslot : slotAt p1 j.toNat = some d)
    (hop : d.opened = true) (hout : d.out = some h)
    (hnr : 0 ≤ env.newRequestResult) :
    pool_io_open env true true ms pool =
      IOOut.ret j
        (modifySlot p1 j.toNat (fun x => { x with mustSucceed := ms }))
        [ExtCall.newRequest h] := by
  have h1 : ¬ (j < 0) := not_lt.mpr hj
  have h2 : ¬ (env.newRequestResult < 0) := not_lt.mpr hnr
  simp only [pool_io_open, hclaim, hslot, hop, hout, h1, h2, Bool.and_self,
    if_true, if_false, ite_false, ite_true]
  simp [hop]

/-- C6 witness: claiming the released persistent slot 0 of reusePool and
starting a new request on its handle 7 succeeds and returns index 0. -/
theorem pool_io_open_reuses_persistent_witness :
    pool_io_open okEnv true true false reusePool =
      IOOut.ret 0
        (modifySlot reusePoolClaimed (0 : Int).toNat
          (fun x => { x with mustSucceed := false }))
        [ExtCall.newRequest 7] :=
  pool_io_open_reuses_persistent okEnv reusePool reusePoolClaimed 0
    { releasedSlot 5 7 with claimed := true, tid := 0 } 7 false
    (by decide) (by decide) (by decide) (by decide) (by decide) (by decide)

/-! ### Path lemmas for the dispatcher failure branches -/

/-- Persistent path, freshly claimed unopened slot, io_open fails: the slot is
force-released and abort_if_needed decides between abort and error return. -/
theorem pool_io_open_unopened_fail (env : Env) (pool p1 : Pool) (j : Int)
    (d : ThreadData) (ms : Bool)
    (hclaim : claim_connection env.now pool = (j, p1)) (hj : 0 ≤ j)
    (hslot : slotAt p1 j.toNat = some d) (hop : d.opened = false)
    (hfail : env.ioOpenResult < 0) :
    pool_io_open env true true ms pool =
      if ms then IOOut.aborted [ExtCall.ioOpen]
      else IOOut.ret env.ioOpenResult
        (force_release_connection
          (modifySlot (modifySlot p1 j.toNat
            (fun x => { x with mustSucceed := ms }))
            j.toNat (fun x => { x with out := none }))
          j.toNat)
        [ExtCall.ioOpen] := by
  have h1 : ¬ (j < 0) := not_lt.mpr hj
  simp only [pool_io_open, hclaim, hslot, hop, h1, hfail, Bool.and_self,
    if_true, if_false, ite_false, ite_true]

/-- Persistent path, reused opened slot, ff_http_do_new_request fails: the
handle is closed, the slot force-released, and abort_if_needed decides. -/
theorem pool_io_open_reuse_fail (env : Env) (pool p1 : Pool) (j : Int)
    (d : ThreadData) (h : Nat) (ms : Bool)
    (hclaim : claim_connection env.now pool = (j, p1)) (hj : 0 ≤ j)
    (hslot : slotAt p1 j.toNat = some d) (hop : d.opened = true)
    (hout : d.out = some h) (hfail : env.newRequestResult < 0) :
    pool_io_open env true true ms pool =
      if ms then IOOut.aborted [ExtCall.newRequest h, ExtCall.ioClose h]
      else IOOut.ret env.newRequestResult
        (force_release_connection
          (modifySlot (modifySlot p1 j.toNat
            (fun x => { x with mustSucceed := ms }))
            j.toNat (fun x => { x with out := none }))
          j.toNat)
        [ExtCall.newRequest h, ExtCall.ioClose h] := by
  have h1 : ¬ (j < 0) := not_lt.mpr hj
  simp only [pool_io_open, hclaim, hslot, hop, hout, h1, hfail, Bool.and_self,
    if_true, if_false, ite_false, ite_true]
  simp [hop]

/-- With a non-HTTP target (or persistence off) pool_io_open is open_request. -/
theorem pool_io_open_non_persistent (env : Env) (hp ms : Bool) (pool : Pool) :
    pool_io_open env false hp ms pool = open_request env pool := by
  simp [pool_io_open]

/-- open_request when the claim succeeds but io_open fails: the error is
returned and the slot is neither released nor reset. -/
theorem open_request_fail (env : Env) (pool p1 : Pool) (j : Int)
    (d : ThreadData)
    (hclaim : claim_connection env.now pool = (j, p1)) (hj : 0 ≤ j)
    (hslot : slotAt p1 j.toNat = some d) (hfail : env.ioOpenResult < 0) :
    open_request env pool =
      IOOut.ret env.ioOpenResult
        (modifySlot p1 j.toNat (fun x => { x with out := none }))
        [ExtCall.ioOpen] := by
  have h1 : ¬ (j < 0) := not_lt.mpr hj
  simp only [open_request, hclaim, hslot, h1, hfail, if_true, if_false,
    ite_false, ite_true]

/-- C3 counterexample: must_succeed=true, non-persistent path, the underlying
open fails — pool_io_open returns the error code -5 instead of terminating
(open_request never consults must_succeed). -/
theorem must_succeed_abort_counterexample :
    pool_io_open failEnv false false true freshPool20 =
      IOOut.ret (-5) poolAfterFirstClaim [ExtCall.ioOpen] := by
  decide

/-- C3 (amended): with must_succeed=true a connection-level failure aborts in
the persistent-HTTP path (open failure and new-request failure) and in the
async close path (shutdown failure, using the slot's stored must_succeed);
but in the non-persistent path an open failure returns the error without
aborting. -/
theorem must_succeed_abort_paths (env : Env) (pool : Pool) :
    (∀ (p1 : Pool) (j : Int) (d : ThreadData),
      claim_connection env.now pool = (j, p1) → 0 ≤ j →
      slotAt p1 j.toNat = some d → d.opened = false → env.ioOpenResult < 0 →
      pool_io_open env true true true pool = IOOut.aborted [ExtCall.ioOpen]) ∧
    (∀ (p1 : Pool) (j : Int) (d : ThreadData) (h : Nat),
      claim_connection env.now pool = (j, p1) → 0 ≤ j →
      slotAt p1 j.toNat = some d → d.opened = true → d.out = some h →
      env.newRequestResult < 0 →
      pool_io_open env true true true pool =
        IOOut.aborted [ExtCall.newRequest h, ExtCall.ioClose h]) ∧
    (∀ (i : Nat) (d : ThreadData) (h : Nat),
      slotAt pool i = some d → d.out = some h → d.mustSucceed = true →
      env.shutdownResult < 0 →
      thr_io_close env pool i =
        IOOut.aborted [ExtCall.flush h, ExtCall.shutdown h]) ∧
    (∀ (hp : Bool) (p1 : Pool) (j : Int) (d : ThreadData),
      claim_connection env.now pool = (j, p1) → 0 ≤ j →
      slotAt p1 j.toNat = some d → env.ioOpenResult < 0 →
      pool_io_open env false hp true pool =
        IOOut.ret env.ioOpenResult
          (modifySlot p1 j.toNat (fun x => { x with out := none }))
          [ExtCall.ioOpen]) := by
  refine ⟨?_, ?_, ?_, ?_⟩
  · intro p1 j d hclaim hj hslot hop hfail
    simpa using pool_io_open_unopened_fail env pool p1 j d true hclaim hj hslot hop hfail
  · intro p1 j d h hclaim hj hslot hop hout hfail
    simpa using pool_io_open_reuse_fail env pool p1 j d h true hclaim hj hslot hop hout hfail
  · intro i d h hslot hout hms hfail
    simp only [thr_io_close, hslot, hout, hms, if_pos hfail, ite_true]
  · intro hp p1 j d hclaim hj hslot hfail
    rw [pool_io_open_non_persistent]
    exact open_request_fail env pool p1 j d hclaim hj hslot hfail

/-- C3 witness: on a fresh pool with must_succeed=true, a failing io_open in
the persistent path aborts the process. -/
theorem must_succeed_abort_paths_witness :
    pool_io_open failEnv true true true freshPool20 =
      IOOut.aborted [ExtCall.ioOpen] :=
  (must_succeed_abort_paths failEnv freshPool20).1 poolAfterFirstClaim 0
    (claimedFresh 0) (by decide) (by decide) (by decide) (by decide) (by decide)

/-- C5 counterexample: must_succeed=false, non-persistent path, underlying
open fails — pool_io_open returns the error, but the slot is still claimed
afterwards (open_request has no release on its failure path). -/
theorem open_failure_nonfatal_counterexample :
    pool_io_open failEnv false false false freshPool20 =
      IOOut.ret (-5) poolAfterFirstClaim [ExtCall.ioOpen] ∧
    (slotAt poolAfterFirstClaim 0).map ThreadData.claimed = some true ∧
    (slotAt poolAfterFirstClaim 0).map ThreadData.opened = some false := by
  decide

/-- C5 (amended): when must_succeed=false and io_open fails on a freshly
claimed unopened slot, the persistent path returns the negative error with
the slot force-freed (unclaimed and unopened), while the non-persistent path
returns the negative error with the slot still claimed (and unopened). -/
theorem open_failure_nonfatal (env : Env) (pool : Pool) :
    (∀ (p1 : Pool) (j : Int) (d : ThreadData),
      claim_connection env.now pool = (j, p1) → 0 ≤ j →
      slotAt p1 j.toNat = some d → d.opened = false → env.ioOpenResult < 0 →
      ∃ p' : Pool,
        pool_io_open env true true false pool =
          IOOut.ret env.ioOpenResult p' [ExtCall.ioOpen] ∧
        ∃ d', slotAt p' j.toNat = some d' ∧ d'.claimed = false ∧
          d'.opened = false) ∧
    (∀ (hp : Bool) (p1 : Pool) (j : Int) (d : ThreadData),
      claim_connection env.now pool = (j, p1) → 0 ≤ j →
      slotAt p1 j.toNat = some d → d.opened = false → env.ioOpenResult < 0 →
      ∃ p' : Pool,
        pool_io_open env false hp false pool =
          IOOut.ret env.ioOpenResult p' [ExtCall.ioOpen] ∧
        ∃ d', slotAt p' j.toNat = some d' ∧ d'.claimed = true ∧
          d'.opened = false) := by
  constructor
  · intro p1 j d hclaim hj hslot hop hfail
    refine ⟨_, by simpa using
      pool_io_open_unopened_fail env pool p1 j d false hclaim hj hslot hop hfail, ?_⟩
    refine ⟨{ { { d with mustSucceed := false } with out := none } with
      opened := false, claimed := false }, ?_, rfl, rfl⟩
    simp [force_release_connection, slotAt_modifySlot_self, hslot]
  · intro hp p1 j d hclaim hj hslot hop hfail
    obtain ⟨e, he, hec, hp1⟩ := claim_connection_spec hclaim hj
    have hd : d = { e with claimed := true, tid := j.toNat } := by
      rw [hp1, slotAt_modifySlot_self, he] at hslot
      exact (Option.some.inj hslot).symm
    refine ⟨modifySlot p1 j.toNat (fun x => { x with out := none }), ?_, ?_⟩
    · rw [pool_io_open_non_persistent]
      exact open_request_fail env pool p1 j d hclaim hj hslot hfail
    · refine ⟨{ d with out := none }, ?_, ?_, ?_⟩
      · simp [slotAt_modifySlot_self, hslot]
      · rw [hd]
      · simpa using hop

/-- C5 witness: on a fresh pool with must_succeed=false and a failing
io_open, the persistent path returns the error and leaves slot 0 unclaimed
and unopened. -/
theorem open_failure_nonfatal_witness :
    ∃ p' : Pool,
      pool_io_open failEnv true true false freshPool20 =
        IOOut.ret failEnv.ioOpenResult p' [ExtCall.ioOpen] ∧
      ∃ d', slotAt p' (0 : Int).toNat = some d' ∧ d'.claimed = false ∧
        d'.opened = false :=
  (open_failure_nonfatal failEnv freshPool20).1 poolAfterFirstClaim 0
    (claimedFresh 0) (by decide) (by decide) (by decide) (by decide) (by decide)

/-- An index at or past the table length reads no slot. -/
theorem slotAt_none_of_ge (l : Pool) : ∀ n, l.length ≤ n → slotAt l n = none := by
  induction l with
  | nil => intro n _; cases n <;> rfl
  | cons d rest ih =>
    intro n hn
    cases n with
    | zero => exact absurd hn (by simp)
    | succ n => exact ih n (by simpa using hn)

/-- C7: when the async close job completes without aborting, the slot ends
unclaimed with release_time set to the job's entry time; opened is preserved
when the shutdown succeeded and cleared when the shutdown failed on a slot
whose request was not must-succeed. -/
theorem thr_io_close_releases (env : Env) (pool : Pool) (i : Nat)
    (d : ThreadData) (h : Nat)
    (hslot : slotAt pool i = some d) (hout : d.out = some h) :
    (0 ≤ env.shutdownResult →
      thr_io_close env pool i =
        IOOut.ret 0 (modifySlot pool i (fun x =>
          { x with claimed := false, releaseTime := env.now }))
          [ExtCall.flush h, ExtCall.shutdown h] ∧
      ∃ d', slotAt (modifySlot pool i (fun x =>
          { x with claimed := false, releaseTime := env.now })) i = some d' ∧
        d'.claimed = false ∧ d'.releaseTime = env.now ∧ d'.opened = d.opened) ∧
    (env.shutdownResult < 0 → d.mustSucceed = false →
      thr_io_close env pool i =
        IOOut.ret 0 (modifySlot pool i (fun x =>
          { x with opened := false, claimed := false, releaseTime := env.now }))
          [ExtCall.flush h, ExtCall.shutdown h] ∧
      ∃ d', slotAt (modifySlot pool i (fun x =>
          { x with opened := false, claimed := false, releaseTime := env.now })) i
          = some d' ∧
        d'.claimed = false ∧ d'.releaseTime = env.now ∧ d'.opened = false) := by
  constructor
  · intro hs
    have hns : ¬ (env.shutdownResult < 0) := not_lt.mpr hs
    constructor
    · simp [thr_io_close, hslot, hout, hns]
    · refine ⟨{ d with claimed := false, releaseTime := env.now }, ?_, rfl, rfl, rfl⟩
      simp [slotAt_modifySlot_self, hslot]
  · intro hs hms
    constructor
    · simp [thr_io_close, hslot, hout, hs, hms]
    · refine ⟨{ d with opened := false, claimed := false, releaseTime := env.now },
        ?_, rfl, rfl, rfl⟩
      simp [slotAt_modifySlot_self, hslot]

/-- C7 witness: a successful async close of the busy slot 0 leaves it
unclaimed with release_time 1000 and opened still true. -/
theorem thr_io_close_releases_witness :
    thr_io_close okEnv (busySlot 7 :: List.replicate 19 freshSlot) 0 =
      IOOut.ret 0 (modifySlot (busySlot 7 :: List.replicate 19 freshSlot) 0
        (fun x => { x with claimed := false, releaseTime := okEnv.now }))
        [ExtCall.flush 3, ExtCall.shutdown 3] ∧
    ∃ d', slotAt (modifySlot (busySlot 7 :: List.replicate 19 freshSlot) 0
        (fun x => { x with claimed := false, releaseTime := okEnv.now })) 0
        = some d' ∧
      d'.claimed = false ∧ d'.releaseTime = okEnv.now ∧
      d'.opened = (busySlot 7).opened :=
  (thr_io_close_releases okEnv (busySlot 7 :: List.replicate 19 freshSlot) 0
    (busySlot 7) 3 (by decide) (by decide)).1 (by decide)

/-- C8 counterexample: force_release_connection takes no clock at all and
passes the pre-state release time through unchanged (7 stays 7 and 9 stays
9), while clearing claimed — so a force-release does not set
last_release_time to the current time. -/
theorem force_release_time_counterexample :
    (slotAt (force_release_connection
        (busySlot 7 :: List.replicate 19 freshSlot) 0) 0).map
      ThreadData.releaseTime = some 7 ∧
    (slotAt (force_release_connection
        (busySlot 9 :: List.replicate 19 freshSlot) 0) 0).map
      ThreadData.releaseTime = some 9 ∧
    (slotAt (force_release_connection
        (busySlot 7 :: List.replicate 19 freshSlot) 0) 0).map
      ThreadData.claimed = some false := by
  decide

/-- C8 (amended): the synchronous force-release clears claimed and opened but
leaves last_release_time (and every other field) unchanged and touches no
other slot; last_release_time is set to the current time only when an async
close job completes, i.e. by thr_io_close. -/
theorem force_release_connection_spec (pool : Pool) (i : Nat) (d : ThreadData)
    (hslot : slotAt pool i = some d) :
    slotAt (force_release_connection pool i) i =
      some { d with opened := false, claimed := false } ∧
    (∀ k, k ≠ i → slotAt (force_release_connection pool i) k = slotAt pool k) ∧
    (force_release_connection pool i).length = pool.length ∧
    (∀ (env : Env) (p' : Pool) (v : Int) (calls : List ExtCall),
      thr_io_close env pool i = IOOut.ret v p' calls →
      (slotAt p' i).map ThreadData.releaseTime = some env.now) := by
  refine ⟨?_, ?_, ?_, ?_⟩
  · simp [force_release_connection, slotAt_modifySlot_self, hslot]
  · intro k hk
    simp [force_release_connection, slotAt_modifySlot_other _ _ _ _ hk]
  · simp [force_release_connection, length_modifySlot]
  · intro env p' v calls hret
    simp only [thr_io_close, hslot] at hret
    cases hout : d.out with
    | none => simp only [hout] at hret; cases hret
    | some h2 =>
      simp only [hout] at hret
      by_cases hs : env.shutdownResult < 0
      · rw [if_pos hs] at hret
        cases hms : d.mustSucceed with
        | true => simp only [hms, if_true, ite_true] at hret; cases hret
        | false =>
          simp only [hms, Bool.false_eq_true, if_false, ite_false] at hret
          injection hret with h1 h2 h3
          rw [← h2]
          simp [slotAt_modifySlot_self, hslot]
      · rw [if_neg hs] at hret
        injection hret with h1 h2 h3
        rw [← h2]
        simp [slotAt_modifySlot_self, hslot]

/-- C8 witness: force-releasing the busy slot 0 clears claimed and opened,
keeps its release time 7, and leaves the other slots alone. -/
theorem force_release_connection_spec_witness :
    slotAt (force_release_connection
        (busySlot 7 :: List.replicate 19 freshSlot) 0) 0 =
      some { busySlot 7 with opened := false, claimed := false } ∧
    (∀ k, k ≠ 0 → slotAt (force_release_connection
        (busySlot 7 :: List.replicate 19 freshSlot) 0) k =
      slotAt (busySlot 7 :: List.replicate 19 freshSlot) k) ∧
    (force_release_connection
        (busySlot 7 :: List.replicate 19 freshSlot) 0).length =
      (busySlot 7 :: List.replicate 19 freshSlot).length ∧
    (∀ (env : Env) (p' : Pool) (v : Int) (calls : List ExtCall),
      thr_io_close env (busySlot 7 :: List.replicate 19 freshSlot) 0 =
        IOOut.ret v p' calls →
      (slotAt p' 0).map ThreadData.releaseTime = some env.now) :=
  force_release_connection_spec (busySlot 7 :: List.replicate 19 freshSlot) 0
    (busySlot 7) (by decide)

/-- C9 counterexample: pool_io_close on an in-range slot that is claimed but
not opened, with the slot's must_succeed flag set, aborts the process instead
of being a log-only no-op. -/
theorem pool_ops_invalid_slot_counterexample :
    pool_io_close (mustSlot :: List.replicate 19 freshSlot) 0 =
      IOOut.aborted [] := by
  decide

/-- C9 (amended): the five public slot operations detect only a negative
conn_nr, which is log-and-no-op (pool_avio_write returning -1); an index at
or past the table length is unchecked and is an out-of-bounds access; and on
an in-range unopened slot pool_io_close runs abort_if_needed on the slot's
must_succeed flag — aborting when it is set, a no-op otherwise. -/
theorem pool_ops_invalid_slot (pool : Pool) (c : Int) :
    (c < 0 →
      pool_io_close pool c = IOOut.ret 0 pool [] ∧
      pool_free pool c = IOOut.ret 0 pool [] ∧
      pool_write_flush pool c = IOOut.ret 0 pool [] ∧
      pool_avio_write pool c = IOOut.ret (-1) pool [] ∧
      pool_get_context pool c = CtxOut.unset) ∧
    (0 ≤ c → pool.length ≤ c.toNat →
      pool_io_close pool c = IOOut.oob [] ∧
      pool_free pool c = IOOut.oob [] ∧
      pool_write_flush pool c = IOOut.oob [] ∧
      pool_avio_write pool c = IOOut.oob [] ∧
      pool_get_context pool c = CtxOut.oob) ∧
    (∀ d, 0 ≤ c → slotAt pool c.toNat = some d → d.opened = false →
      (d.mustSucceed = true → pool_io_close pool c = IOOut.aborted []) ∧
      (d.mustSucceed = false → pool_io_close pool c = IOOut.ret 0 pool [])) := by
  refine ⟨?_, ?_, ?_⟩
  · intro hc
    refine ⟨?_, ?_, ?_, ?_, ?_⟩ <;>
      simp [pool_io_close, pool_free, pool_write_flush, pool_avio_write,
        pool_get_context, hc]
  · intro hc0 hlen
    have hnone := slotAt_none_of_ge pool c.toNat hlen
    have hc : ¬ (c < 0) := not_lt.mpr hc0
    refine ⟨?_, ?_, ?_, ?_, ?_⟩ <;>
      simp [pool_io_close, pool_free, pool_write_flush, pool_avio_write,
        pool_get_context, hc, hnone]
  · intro d hc0 hslot hop
    have hc : ¬ (c < 0) := not_lt.mpr hc0
    constructor
    · intro hms
      simp [pool_io_close, hc, hslot, hop, hms]
    · intro hms
      simp [pool_io_close, hc, hslot, hop, hms]

/-- C9 witness: all five operations treat conn_nr = -3 as a log-only no-op. -/
theorem pool_ops_invalid_slot_witness :
    pool_io_close freshPool20 (-3) = IOOut.ret 0 freshPool20 [] ∧
    pool_free freshPool20 (-3) = IOOut.ret 0 freshPool20 [] ∧
    pool_write_flush freshPool20 (-3) = IOOut.ret 0 freshPool20 [] ∧
    pool_avio_write freshPool20 (-3) = IOOut.ret (-1) freshPool20 [] ∧
    pool_get_context freshPool20 (-3) = CtxOut.unset :=
  (pool_ops_invalid_slot freshPool20 (-3)).1 (by decide)

/-- C10 counterexample: for conn_nr = 20 (non-negative, but one past the
table) pool_avio_write does not return 0 — the access is out of bounds. -/
theorem pool_avio_write_result_counterexample :
    pool_avio_write freshPool20 20 = IOOut.oob [] := by
  decide

/-- C10 (amended): pool_avio_write returns -1 exactly when conn_nr is
negative; for an in-range conn_nr it returns 0 with the table unchanged,
writing only when the slot has a stream handle (a NULL handle silently
discards the bytes); an index at or past the table length is an
out-of-bounds access. -/
theorem pool_avio_write_result (pool : Pool) (c : Int) :
    (c < 0 → pool_avio_write pool c = IOOut.ret (-1) pool []) ∧
    (∀ d, 0 ≤ c → slotAt pool c.toNat = some d →
      (d.out = none → pool_avio_write pool c = IOOut.ret 0 pool []) ∧
      (∀ h, d.out = some h →
        pool_avio_write pool c = IOOut.ret 0 pool [ExtCall.write h])) ∧
    (0 ≤ c → pool.length ≤ c.toNat → pool_avio_write pool c = IOOut.oob []) := by
  refine ⟨?_, ?_, ?_⟩
  · intro hc
    simp [pool_avio_write, hc]
  · intro d hc0 hslot
    have hc : ¬ (c < 0) := not_lt.mpr hc0
    constructor
    · intro hout
      simp [pool_avio_write, hc, hslot, hout]
    · intro h hout
      simp [pool_avio_write, hc, hslot, hout]
  · intro hc0 hlen
    have hc : ¬ (c < 0) := not_lt.mpr hc0
    simp [pool_avio_write, hc, slotAt_none_of_ge pool c.toNat hlen]

/-- C10 witness: writing through slot 3 of a fresh pool (whose handle is
NULL) returns 0, performs no external write, and changes nothing. -/
theorem pool_avio_write_result_witness :
    pool_avio_write freshPool20 3 = IOOut.ret 0 freshPool20 [] :=
  ((pool_avio_write_result freshPool20 3).2.1 freshSlot (by decide)
    (by decide)).1 (by decide)

end DashencHttp
